import Mathlib

/-!
Verification development for the analytics engine of the
Popular-AI-Startup-Search repository (FastAPI backend, `backend/app`).

The Python source is shallowly embedded: mention counts are `Nat`,
percentage values are `ℚ`, display strings are `String`, and rows read
from the database are passed in explicitly as lists.  Python's binary
floating point intermediates are idealized as exact rational
arithmetic; every concrete input used in a theorem below sits at a
point where the float computation is exact (0.25, 0.01, 6.25, … are
representable doubles), so the idealization is faithful there.
-/

namespace PopAI

/-! ## Rounding primitives

`decimalQuantizeHalfUp1` models
`Decimal(str(x)).quantize(Decimal('0.1'), rounding=ROUND_HALF_UP)`
(`services/analysis_service.py` line 176): round to one decimal digit,
ties away from zero.

`pyRoundAt q s` models Python's built-in `round` at denominator scale
`s` on the idealized rational value: nearest multiple of `1/s`, ties to
even.  `pyRound1 q` models `round(q, 1)`, `pyRound6 q` models
`round(q, 6)`. -/

def decimalQuantizeHalfUp1 (q : ℚ) : ℚ :=
  if 0 ≤ q then (⌊q * 10 + 1/2⌋ : ℚ) / 10
  else -((⌊(-q) * 10 + 1/2⌋ : ℚ) / 10)

def roundHalfEvenInt (t : ℚ) : ℤ :=
  let f : ℤ := ⌊t⌋
  let r : ℚ := t - f
  if r < 1/2 then f
  else if 1/2 < r then f + 1
  else if f % 2 = 0 then f else f + 1

def pyRoundAt (q : ℚ) (s : ℕ) : ℚ :=
  (roundHalfEvenInt (q * s) : ℚ) / s

def pyRound1 (q : ℚ) : ℚ := pyRoundAt q 10

def pyRound6 (q : ℚ) : ℚ := pyRoundAt q 1000000

/-- Model of the Python f-string `f"{x:.1f}"`: the value rounded to one
decimal digit (ties to even, as C `printf` does on the idealized exact
value), printed with exactly one digit after the point; a negative
input keeps its sign even when the rounded magnitude is zero
(`f"{-0.01:.1f}"` is `"-0.0"`). -/
def pyFmt1 (q : ℚ) : String :=
  let k : ℤ := roundHalfEvenInt ((if q < 0 then -q else q) * 10)
  (if q < 0 then "-" else "") ++ toString (k.natAbs / 10) ++ "." ++ toString (k.natAbs % 10)

/-- The exact percentage change `((current - previous) / previous) * 100`
appearing in all three change computations. -/
def pct (current previous : ℕ) : ℚ :=
  ((current : ℚ) - (previous : ℚ)) / (previous : ℚ) * 100

/-! ## ChangeMetric, `services/analysis_service.py` path -/

/-- Embeds `AnalysisService._calculate_percentage_change` (lines
160-176): 0 when both are 0, the 999 sentinel when only the previous
count is 0, otherwise the percentage quantized half-up to one decimal.
The Python code never returns `None`, so the `Optional` result type is
embedded as plain `ℚ`. -/
def calcPercentageChange (current previous : ℕ) : ℚ :=
  if previous = 0 then
    if current = 0 then 0 else 999
  else
    decimalQuantizeHalfUp1 (pct current previous)

/-- Embeds `AnalysisService._format_percentage_change` (lines 178-189). -/
def formatPercentageChange (percentage : Option ℚ) : String :=
  match percentage with
  | none => "N/A"
  | some v =>
    if 0 < v then "+" ++ pyFmt1 v ++ "%"
    else if v < 0 then pyFmt1 v ++ "%"
    else "0.0%"

/-- Result row built by `AnalysisService._calculate_company_yoy` (lines
149-158).  `company_id`/`company_name` are irrelevant to the claims and
omitted; the two `Option ℕ` arguments are the `MonthlyMention` rows
found for the target month and the same month one year earlier
(`none` = no row, `some n` = a row with `mention_count = n`). -/
structure YoYEntry where
  current_month_mentions : ℕ
  previous_year_mentions : ℕ
  monthly_change_percentage : Option ℚ
  formatted_change : String
  status : String
deriving DecidableEq, Repr

/-- Embeds the fault-free path of `AnalysisService._calculate_company_yoy`
(lines 89-158): absent record means count 0; the returned dict carries
`float(change_percentage) if change_percentage else None` — a zero
`Decimal` is falsy in Python, so a 0.0 change is reported as `None` —
and the status is the literal `"success"`. -/
def calculateCompanyYoY (currentRow previousRow : Option ℕ) : YoYEntry :=
  let c := currentRow.getD 0
  let p := previousRow.getD 0
  let v := calcPercentageChange c p
  { current_month_mentions := c
    previous_year_mentions := p
    monthly_change_percentage := if v = 0 then none else some v
    formatted_change := formatPercentageChange (some v)
    status := "success" }

/-! ## ChangeMetric, `services/newsapi_real_data_service.py` path -/

/-- Result row built inside
`NewsAPIRealDataService.get_newsapi_mom_analysis` (lines 167-177). -/
structure NewsapiMomEntry where
  current_mentions : ℕ
  previous_mentions : ℕ
  change_percentage : ℚ
  formatted_change : String
  status : String
deriving DecidableEq, Repr

/-- Embeds the per-company body of
`NewsAPIRealDataService.get_newsapi_mom_analysis` (lines 128-177):
the change value and formatted string are computed by the inline
`previous_mentions == 0` cascade, the stored value is `round(x, 1)`,
the sign of the formatted string is taken from the *unrounded* change,
and the status is `"success"` when a row existed for either month and
`"no_data"` otherwise. -/
def newsapiMomEntry (currentRow previousRow : Option ℕ) : NewsapiMomEntry :=
  let c := currentRow.getD 0
  let p := previousRow.getD 0
  let vf : ℚ × String :=
    if p = 0 then
      if c = 0 then (0, "0.0%") else (999, "+999.0%")
    else
      let raw := pct c p
      (raw,
        if 0 < raw then "+" ++ pyFmt1 raw ++ "%"
        else if raw < 0 then pyFmt1 raw ++ "%"
        else "0.0%")
  { current_mentions := c
    previous_mentions := p
    change_percentage := pyRound1 vf.1
    formatted_change := vf.2
    status := if currentRow.isSome || previousRow.isSome then "success" else "no_data" }

/-! ## ChangeMetric, `api/analysis.py` `get_newsapi_mom_analysis` path -/

/-- Result row built inside the `/analysis/newsapi-mom` endpoint
(`api/analysis.py` lines 735-745). -/
structure ApiNewsapiMomEntry where
  current_month_mentions : ℕ
  previous_month_mentions : ℕ
  monthly_change_percentage : ℚ
  formatted_change : String
  status : String
deriving DecidableEq, Repr

/-- Embeds the fault-free per-company body of the `/analysis/newsapi-mom`
endpoint (`api/analysis.py` lines 690-745): same cascade as the service
path, but the stored change value is the *unrounded* percentage and the
status is always `"success"`. -/
def apiNewsapiMomEntry (currentRow previousRow : Option ℕ) : ApiNewsapiMomEntry :=
  let c := currentRow.getD 0
  let p := previousRow.getD 0
  let vf : ℚ × String :=
    if p = 0 then
      if c = 0 then (0, "0.0%") else (999, "+999.0%")
    else
      let raw := pct c p
      (raw,
        if 0 < raw then "+" ++ pyFmt1 raw ++ "%"
        else if raw < 0 then pyFmt1 raw ++ "%"
        else "0.0%")
  { current_month_mentions := c
    previous_month_mentions := p
    monthly_change_percentage := vf.1
    formatted_change := vf.2
    status := "success" }

/-! ## List sorting

Python's `list.sort` is a stable sort; we embed it as a stable insertion
sort parameterized by a boolean comparator `le`, where `le x y = true`
means `x` may be placed before `y`.  Each call site instantiates `le`
with the key and direction of the corresponding `.sort(...)` call. -/

def insertBy {α : Type} (le : α → α → Bool) (x : α) : List α → List α
  | [] => [x]
  | y :: ys => if le x y then x :: y :: ys else y :: insertBy le x ys

def insertionSortBy {α : Type} (le : α → α → Bool) : List α → List α
  | [] => []
  | x :: xs => insertBy le x (insertionSortBy le xs)

/-! ## Python dict

The ranking code uses its dicts (`rank_map`, `prev_rank_map`) only
through key lookup (`d[k] = v` then `d.get(k)`), never through
iteration, so a dict is embedded as an association list to which
`pyDictSet` prepends and in which `pyDictGet?` finds the most recent
binding — exactly the lookup semantics of repeated `d[k] = v`. -/

def pyDictSet {β : Type} (m : List (String × β)) (k : String) (v : β) :
    List (String × β) :=
  (k, v) :: m

def pyDictGet? {β : Type} (m : List (String × β)) (k : String) : Option β :=
  (m.find? (fun p => p.1 == k)).map (·.2)

/-! ## RankAssigner and CrossSourceAggregator, `api/comprehensive.py` -/

/-- One element of a per-source result list handed to
`calculate_proper_ranking`: the GDELT rows carry the metric under the
key `"current_month_mentions"`, the NewsAPI rows under
`"current_mentions"`; both are embedded as this one shape. -/
structure SrcItem where
  company_name : String
  mentions : ℕ
deriving DecidableEq, Repr

/-- The inner rank loop of `calculate_proper_ranking`
(`api/comprehensive.py` lines 128-132): start at 1 and add 1 for every
entry of `data` whose metric is strictly greater. -/
def properRank (data : List SrcItem) (mentions : ℕ) : ℕ :=
  data.foldl (fun r other => if mentions < other.mentions then r + 1 else r) 1

/-- The per-company value stored in `rank_map` (lines 134-137). -/
structure RankInfo where
  rank : ℕ
  mentions : ℕ
deriving DecidableEq, Repr

/-- Embeds `calculate_proper_ranking` (lines 119-139): one dict write
per list element, in list order, so a duplicated company name keeps the
value computed from its last occurrence. -/
def calculateProperRanking (data : List SrcItem) : List (String × RankInfo) :=
  data.foldl
    (fun m item =>
      pyDictSet m item.company_name ⟨properRank data item.mentions, item.mentions⟩)
    []

/-- The union `all_companies` of the two sources' company names
(lines 152-154).  Python builds a `set`, whose iteration order is
unspecified; it is embedded as the deduplicated concatenation, which
contains exactly the same names, each once. -/
def allCompanyNames (gdeltData newsapiData : List SrcItem) : List String :=
  (gdeltData.map (·.company_name) ++ newsapiData.map (·.company_name)).dedup

/-- One entry of the combined ranking (lines 170-177 plus the
`final_rank` field added at line 192).  `final_rank` is 0 until the
second pass assigns it. -/
structure CombinedEntry where
  company_name : String
  gdelt_mentions : ℕ
  gdelt_rank : ℕ
  newsapi_mentions : ℕ
  newsapi_rank : ℕ
  combined_rank_score : ℕ
  final_rank : ℕ
deriving DecidableEq, Repr

/-- The entry built for one company name in the `for company_name in
all_companies` loop (lines 159-177): a source that has no entry for the
name contributes mentions 0 and rank (that source's list length + 1). -/
def mkCombinedEntry (gdeltData newsapiData : List SrcItem) (nm : String) :
    CombinedEntry :=
  let gi := pyDictGet? (calculateProperRanking gdeltData) nm
  let ni := pyDictGet? (calculateProperRanking newsapiData) nm
  let grank := match gi with | some i => i.rank | none => gdeltData.length + 1
  let nrank := match ni with | some i => i.rank | none => newsapiData.length + 1
  { company_name := nm
    gdelt_mentions := (gi.map (·.mentions)).getD 0
    gdelt_rank := grank
    newsapi_mentions := (ni.map (·.mentions)).getD 0
    newsapi_rank := nrank
    combined_rank_score := grank + nrank
    final_rank := 0 }

/-- The `comprehensive_ranking` list as built by the
`for company_name in all_companies` loop of
`calculate_comprehensive_ranking`, before the sort at line 180. -/
def comprehensiveBase (gdeltData newsapiData : List SrcItem) :
    List CombinedEntry :=
  (allCompanyNames gdeltData newsapiData).map
    (mkCombinedEntry gdeltData newsapiData)

/-- The same list after
`comprehensive_ranking.sort(key=lambda x: x["combined_rank_score"])`
(line 180). -/
def comprehensiveSorted (gdeltData newsapiData : List SrcItem) :
    List CombinedEntry :=
  insertionSortBy
    (fun a b => decide (a.combined_rank_score ≤ b.combined_rank_score))
    (comprehensiveBase gdeltData newsapiData)

/-- Embeds `calculate_comprehensive_ranking` (lines 141-194): build one
entry per union name, sort ascending by `combined_rank_score`, then set
each entry's `final_rank` to 1 plus the number of entries with a
strictly smaller score (the loop of lines 183-192). -/
def calculateComprehensiveRanking (gdeltData newsapiData : List SrcItem) :
    List CombinedEntry :=
  (comprehensiveSorted gdeltData newsapiData).map (fun e =>
    { e with
      final_rank := (comprehensiveSorted gdeltData newsapiData).foldl
        (fun r other =>
          if other.combined_rank_score < e.combined_rank_score then r + 1 else r)
        1 })

/-- The rank-delta direction of `calculate_ranking_changes`.  The Python
code stores the strings `"up"` / `"down"` / `"same"`, and leaves the
field `None` when the company had no previous rank (and omits the field
entirely on the fallback path, where a reader finds `null`); `unknown`
embeds that `None` / absent state. -/
inductive RankDir where
  | up
  | down
  | same
  | unknown
deriving DecidableEq, Repr

/-- A combined-ranking entry enriched with rank-change fields
(lines 289-295); on the fallback path the three extra fields are
absent, embedded as `none` / `none` / `unknown`. -/
structure RankChangeEntry where
  base : CombinedEntry
  previous_rank : Option ℕ
  rank_change : Option ℤ
  rank_change_direction : RankDir
deriving DecidableEq, Repr

/-- The `prev_rank_map` of lines 265-267. -/
def prevRankMap (prev : List CombinedEntry) : List (String × ℕ) :=
  prev.foldl (fun m it => pyDictSet m it.company_name it.final_rank) []

/-- Embeds `calculate_ranking_changes` (lines 237-304).  The attempt to
compute the previous month's combined ranking sits behind a
`try/except`; its outcome is passed in as `previousRanking`
(`none` = the computation raised, in which case the code returns
`current_ranking` itself — entries unchanged, change fields absent). -/
def calculateRankingChanges (previousRanking : Option (List CombinedEntry))
    (current : List CombinedEntry) : List RankChangeEntry :=
  match previousRanking with
  | none => current.map (fun e => ⟨e, none, none, RankDir.unknown⟩)
  | some prev =>
    let pm := prevRankMap prev
    current.map (fun e =>
      match pyDictGet? pm e.company_name with
      | some p =>
        let d : ℤ := (p : ℤ) - (e.final_rank : ℤ)
        ⟨e, some p, some d,
          if 0 < d then RankDir.up else if d < 0 then RankDir.down else RankDir.same⟩
      | none => ⟨e, none, none, RankDir.unknown⟩)

/-! ## PeriodAnalyzer result-set sorting,
`services/analysis_service.py` lines 231-235 and 327-331 -/

/-- A stored analysis row as seen by the sort: only the name and the
nullable change percentage matter. -/
structure ChangeRow where
  company_name : String
  monthly_change_percentage : Option ℚ
deriving DecidableEq, Repr

/-- The sort key `float(x.monthly_change_percentage or 0)`: Python's
`or` turns both `None` and a zero value into `0`. -/
def sortKeyOrZero (x : ChangeRow) : ℚ :=
  x.monthly_change_percentage.getD 0

/-- Embeds `results.sort(key=lambda x:
float(x.monthly_change_percentage or 0), reverse=True)` used by both
`get_monthly_yoy_results` and `get_monthly_mom_results`. -/
def sortResultsDesc (l : List ChangeRow) : List ChangeRow :=
  insertionSortBy (fun a b => decide (sortKeyOrZero b ≤ sortKeyOrZero a)) l

/-! ## HeatIndexReducer -/

/-- Embeds the averaging step of
`GDELTService._process_heat_index_response`
(`services/gdelt_service.py` lines 238-291): no extracted volume
samples gives `timelinevol_value = 0.0`, otherwise
`round(sum / len, 6)`. -/
def processHeatSamples : List ℚ → ℚ
  | [] => 0
  | samples => pyRound6 (samples.sum / samples.length)

/-- The heat classification ladder.  The Python property returns the
labels 极热 / 很热 / 较热 / 温热 / 微热 / 冷门, which the spec names
extreme / very hot / hot / warm / mild / cold; the constructors stand
for those labels in that order. -/
inductive HeatLevel where
  | extreme
  | veryHot
  | hot
  | warm
  | mild
  | cold
deriving DecidableEq, Repr

/-- Embeds `HeatIndex.heat_level` (`models/heat_index.py` lines 35-49). -/
def heatLevel (hi : ℚ) : HeatLevel :=
  if 1 ≤ hi then HeatLevel.extreme
  else if 1/2 ≤ hi then HeatLevel.veryHot
  else if 1/5 ≤ hi then HeatLevel.hot
  else if 1/10 ≤ hi then HeatLevel.warm
  else if 0 < hi then HeatLevel.mild
  else HeatLevel.cold

/-! ## Month-key validation -/

/-- Model of Python's `s.split("-")`: split at every hyphen, keeping
empty fields (`"a--b".split("-") == ["a", "", "b"]`). -/
def splitDash : List Char → List (List Char)
  | [] => [[]]
  | c :: cs =>
    match splitDash cs with
    | [] => []
    | f :: fs => if c = '-' then [] :: f :: fs else (c :: f) :: fs

/-- The digits of a non-empty all-digit field as a number. -/
def digitsToNat? (cs : List Char) : Option ℕ :=
  if cs = [] then none
  else
    cs.foldl
      (fun acc? c =>
        match acc? with
        | none => none
        | some acc => if c.isDigit then some (acc * 10 + (c.toNat - 48)) else none)
      (some 0)

/-- Model of Python's `int(field)` on a month-key field: an optional
leading minus followed by digits.  (Python's `int` also tolerates
surrounding whitespace, a leading plus and underscores, none of which
occur in month keys.) -/
def pyIntParse? : List Char → Option ℤ
  | '-' :: rest => (digitsToNat? rest).map (fun n => -(n : ℤ))
  | cs => (digitsToNat? cs).map (fun n => (n : ℤ))

/-- Model of `map(int, s.split("-"))` unpacked into two variables with
`ValueError` caught (`services/analysis_service.py` lines 32-35,
`api/analysis.py` lines 665-668, `api/comprehensive.py` line 245):
accepts exactly the strings with one `-`-separated field pair whose
fields parse as integers — any integer month, 13 included, passes. -/
def splitIntMonth? (s : String) : Option (ℤ × ℤ) :=
  match (splitDash s.data).map pyIntParse? with
  | [some y, some m] => some (y, m)
  | _ => none

/-- Model of Python's `f"{n:0wd}"`: zero-pad to width `w`, the sign
taking one column. -/
def fmtIntWidth (w : ℕ) (n : ℤ) : String :=
  let digits := toString n.natAbs
  let pad := fun (k : ℕ) (s : String) =>
    (String.mk (List.replicate (k - s.length) '0')) ++ s
  if n < 0 then "-" ++ pad (w - 1) digits else pad w digits

/-- Embeds the entry of
`AnalysisService.calculate_monthly_yoy_analysis` (lines 30-39): `none`
means the `ValueError` path (the only InvalidInput rejection this
function has), `some (t, p)` means validation passed and the function
goes on to query storage for target month `t` and previous month `p =
f"{year-1:04d}-{month:02d}"`. -/
def yoyAnalysisMonths? (target : String) : Option (String × String) :=
  (splitIntMonth? target).map (fun ym =>
    (target, fmtIntWidth 4 (ym.1 - 1) ++ "-" ++ fmtIntWidth 2 ym.2))

/-- Model of `datetime.strptime(s, "%Y-%m")` succeeding
(`api/analysis.py` lines 133-136 and 241-244): `%Y` matches exactly
four digits, `%m` one or two digits, nothing may remain, and the
`datetime` constructor bounds the year to 1..9999 and the month to
1..12. -/
def strptimeYm? (s : String) : Option (ℕ × ℕ) :=
  match splitDash s.data with
  | [a, b] =>
    if a.length = 4 ∧ (1 ≤ b.length ∧ b.length ≤ 2) then
      match digitsToNat? a, digitsToNat? b with
      | some y, some m =>
        if 1 ≤ y ∧ 1 ≤ m ∧ m ≤ 12 then some (y, m) else none
      | _, _ => none
    else none
  | _ => none

/-- Modelled from the spec: "month keys are always the literal string
pattern YYYY-MM (4-digit year, 2-digit zero-padded month, ASCII
hyphen)" with "month 01-12" — the validity notion the error-handling
section demands before any computation. -/
def specMonthKeyValid (s : String) : Bool :=
  match splitDash s.data with
  | [a, b] =>
    a.length == 4 && a.all Char.isDigit &&
    b.length == 2 && b.all Char.isDigit &&
    (match digitsToNat? b with
     | some m => decide (1 ≤ m) && decide (m ≤ 12)
     | none => false)
  | _ => false

/-- A row of the `monthly_mom_analysis` table as read by
`get_gdelt_ranking_data` (`api/comprehensive.py` lines 52-77). -/
structure MoMRow where
  company_name : String
  analysis_month : String
  current_month_mentions : ℕ
deriving DecidableEq, Repr

/-- Embeds the fault-free path of `get_gdelt_ranking_data`: filter the
table by `analysis_month == target_month` — the raw, unvalidated query
parameter — and sort descending by mentions.  The comprehensive-ranking
endpoint (lines 17-50) calls this without any prior format check. -/
def getGdeltRankingData (momTable : List MoMRow) (targetMonth : String) :
    List SrcItem :=
  let rows := (momTable.filter (fun r => r.analysis_month == targetMonth)).map
    (fun r => SrcItem.mk r.company_name r.current_month_mentions)
  insertionSortBy (fun a b => decide (b.mentions ≤ a.mentions)) rows

/-! ## Helper lemmas -/

theorem foldl_count {α : Type} (p : α → Prop) [DecidablePred p] (l : List α)
    (n : ℕ) :
    l.foldl (fun r o => if p o then r + 1 else r) n
      = n + l.countP (fun o => decide (p o)) := by
  induction l generalizing n with
  | nil => simp
  | cons x xs ih =>
    by_cases hx : p x
    · rw [List.foldl_cons, if_pos hx, ih]
      simp [List.countP_cons, hx]
      omega
    · rw [List.foldl_cons, if_neg hx, ih]
      simp [List.countP_cons, hx]

theorem insertBy_perm {α : Type} (le : α → α → Bool) (x : α) (l : List α) :
    (insertBy le x l).Perm (x :: l) := by
  induction l with
  | nil => exact List.Perm.refl _
  | cons y ys ih =>
    by_cases h : le x y
    · simp [insertBy, h]
    · simp only [insertBy, h, if_neg, Bool.false_eq_true, not_false_eq_true]
      exact (ih.cons y).trans (List.Perm.swap x y ys)

theorem insertionSortBy_perm {α : Type} (le : α → α → Bool) (l : List α) :
    (insertionSortBy le l).Perm l := by
  induction l with
  | nil => exact List.Perm.refl _
  | cons x xs ih =>
    exact (insertBy_perm le x (insertionSortBy le xs)).trans (ih.cons x)

theorem mem_insertBy {α : Type} (le : α → α → Bool) (x a : α) (l : List α) :
    a ∈ insertBy le x l ↔ a = x ∨ a ∈ l := by
  rw [(insertBy_perm le x l).mem_iff, List.mem_cons]

theorem pairwise_insertBy {α : Type} {le : α → α → Bool}
    (htot : ∀ a b, le a b = true ∨ le b a = true)
    (htrans : ∀ a b c, le a b = true → le b c = true → le a c = true)
    (x : α) {l : List α} (h : l.Pairwise (fun a b => le a b = true)) :
    (insertBy le x l).Pairwise (fun a b => le a b = true) := by
  induction l with
  | nil => simp [insertBy]
  | cons y ys ih =>
    rcases List.pairwise_cons.mp h with ⟨hy, hys⟩
    by_cases hxy : le x y
    · simp only [insertBy, hxy, if_pos]
      refine List.pairwise_cons.mpr ⟨?_, h⟩
      intro z hz
      rcases List.mem_cons.mp hz with rfl | hz
      · exact hxy
      · exact htrans x y z hxy (hy z hz)
    · simp only [insertBy, hxy, Bool.false_eq_true, if_neg, not_false_eq_true]
      refine List.pairwise_cons.mpr ⟨?_, ih hys⟩
      intro z hz
      rcases (mem_insertBy le x z ys).mp hz with rfl | hz
      · rcases htot z y with hzy | hyz
        · exact absurd hzy hxy
        · exact hyz
      · exact hy z hz

theorem pairwise_insertionSortBy {α : Type} {le : α → α → Bool}
    (htot : ∀ a b, le a b = true ∨ le b a = true)
    (htrans : ∀ a b c, le a b = true → le b c = true → le a c = true)
    (l : List α) :
    (insertionSortBy le l).Pairwise (fun a b => le a b = true) := by
  induction l with
  | nil => simp [insertionSortBy]
  | cons x xs ih => exact pairwise_insertBy htot htrans x ih

theorem pyDictGet?_set {β : Type} (m : List (String × β)) (k k' : String)
    (v : β) :
    pyDictGet? (pyDictSet m k v) k' = if k = k' then some v else pyDictGet? m k' := by
  by_cases h : k = k' <;> simp [pyDictGet?, pyDictSet, List.find?_cons, h]

theorem foldl_dictSet_get {α β : Type} (key : α → String) (f : α → β)
    (l : List α) (init : List (String × β)) (nm : String) :
    pyDictGet? (l.foldl (fun m it => pyDictSet m (key it) (f it)) init) nm
      = match l.reverse.find? (fun it => key it == nm) with
        | some it => some (f it)
        | none => pyDictGet? init nm := by
  induction l generalizing init with
  | nil => simp
  | cons x xs ih =>
    rw [List.foldl_cons, ih, List.reverse_cons, List.find?_append]
    cases hfind : xs.reverse.find? (fun it => key it == nm) with
    | some it => simp [hfind]
    | none =>
      by_cases h : key x = nm <;>
        simp [hfind, List.find?_cons, h, pyDictGet?_set]

theorem properRank_eq_one_add_count (data : List SrcItem) (mentions : ℕ) :
    properRank data mentions
      = 1 + data.countP (fun o => decide (mentions < o.mentions)) := by
  unfold properRank
  exact foldl_count (fun o => mentions < o.mentions) data 1

theorem calculateProperRanking_get (data : List SrcItem) (nm : String) :
    pyDictGet? (calculateProperRanking data) nm
      = (data.reverse.find? (fun it => it.company_name == nm)).map
          (fun it => RankInfo.mk (properRank data it.mentions) it.mentions) := by
  unfold calculateProperRanking
  rw [foldl_dictSet_get (fun it => it.company_name)
    (fun it => RankInfo.mk (properRank data it.mentions) it.mentions) data [] nm]
  cases data.reverse.find? (fun it => it.company_name == nm) <;>
    simp [pyDictGet?]

theorem calculateProperRanking_get_eq_none (data : List SrcItem) (nm : String)
    (h : nm ∉ data.map (·.company_name)) :
    pyDictGet? (calculateProperRanking data) nm = none := by
  rw [calculateProperRanking_get]
  rw [List.find?_eq_none.mpr]
  · rfl
  · intro it hit hbeq
    exact h (List.mem_map.mpr ⟨it, List.mem_reverse.mp hit, eq_of_beq hbeq⟩)

theorem mkCombinedEntry_company_name (g n : List SrcItem) (nm : String) :
    (mkCombinedEntry g n nm).company_name = nm := rfl

theorem mkCombinedEntry_score (g n : List SrcItem) (nm : String) :
    (mkCombinedEntry g n nm).combined_rank_score
      = (mkCombinedEntry g n nm).gdelt_rank + (mkCombinedEntry g n nm).newsapi_rank := rfl

theorem mem_comprehensive_iff (g n : List SrcItem) (e : CombinedEntry) :
    e ∈ calculateComprehensiveRanking g n
      ↔ ∃ e₀ ∈ comprehensiveSorted g n,
          e = { e₀ with
                final_rank := (comprehensiveSorted g n).foldl
                  (fun r other =>
                    if other.combined_rank_score < e₀.combined_rank_score then r + 1
                    else r) 1 } := by
  unfold calculateComprehensiveRanking
  constructor
  · intro h
    rcases List.mem_map.mp h with ⟨e₀, he₀, rfl⟩
    exact ⟨e₀, he₀, rfl⟩
  · rintro ⟨e₀, he₀, rfl⟩
    exact List.mem_map.mpr ⟨e₀, he₀, rfl⟩

theorem comprehensiveSorted_perm (g n : List SrcItem) :
    (comprehensiveSorted g n).Perm (comprehensiveBase g n) :=
  insertionSortBy_perm _ _

theorem mem_comprehensiveSorted_iff (g n : List SrcItem) (e : CombinedEntry) :
    e ∈ comprehensiveSorted g n
      ↔ ∃ nm ∈ allCompanyNames g n, e = mkCombinedEntry g n nm := by
  rw [(comprehensiveSorted_perm g n).mem_iff]
  unfold comprehensiveBase
  constructor
  · intro h
    rcases List.mem_map.mp h with ⟨nm, hnm, rfl⟩
    exact ⟨nm, hnm, rfl⟩
  · rintro ⟨nm, hnm, rfl⟩
    exact List.mem_map.mpr ⟨nm, hnm, rfl⟩

/-! ## Claim theorems -/

/-- C5: `computeHeat` maps a sequence of volume-intensity samples to a
heat index equal to the arithmetic mean of the samples rounded to 6
decimal places (0.0 for an empty sequence), and the heat level is
classified by the fixed thresholds: heat_index ≥ 1.0 extreme, ≥ 0.5
very hot, ≥ 0.2 hot, ≥ 0.1 warm, > 0 mild, otherwise cold — so the
empty sequence classifies as cold. -/
theorem claim_C5_heat_reducer :
    (processHeatSamples [] = 0 ∧ heatLevel (processHeatSamples []) = HeatLevel.cold) ∧
    (∀ samples : List ℚ, samples ≠ [] →
        processHeatSamples samples = pyRound6 (samples.sum / samples.length)) ∧
    (∀ hi : ℚ,
        (heatLevel hi = HeatLevel.extreme ↔ 1 ≤ hi) ∧
        (heatLevel hi = HeatLevel.veryHot ↔ 1/2 ≤ hi ∧ hi < 1) ∧
        (heatLevel hi = HeatLevel.hot ↔ 1/5 ≤ hi ∧ hi < 1/2) ∧
        (heatLevel hi = HeatLevel.warm ↔ 1/10 ≤ hi ∧ hi < 1/5) ∧
        (heatLevel hi = HeatLevel.mild ↔ 0 < hi ∧ hi < 1/10) ∧
        (heatLevel hi = HeatLevel.cold ↔ hi ≤ 0)) := by
  have hnil : processHeatSamples [] = 0 := rfl
  refine ⟨⟨hnil, by rw [hnil]; norm_num [heatLevel]⟩, ?_, ?_⟩
  · intro samples h
    cases samples with
    | nil => exact absurd rfl h
    | cons a l => rfl
  · intro hi
    unfold heatLevel
    split_ifs with h1 h2 h3 h4 h5 <;>
        refine ⟨?_, ?_, ?_, ?_, ?_, ?_⟩ <;>
      first
        | exact iff_of_true rfl (by constructor <;> linarith)
        | exact iff_of_true rfl (by linarith)
        | exact iff_of_false (by simp) (fun hc => by
            rcases hc with ⟨hc1, hc2⟩ <;> linarith)
        | exact iff_of_false (by simp) (fun hc => by linarith)

/-- Witness for C5 at the spec's own example `[1.2, 0.8]`. -/
theorem claim_C5_heat_reducer_witness :
    ([6/5, 4/5] : List ℚ) ≠ [] ∧
      processHeatSamples [6/5, 4/5]
        = pyRound6 ((([6/5, 4/5] : List ℚ).sum) / (([6/5, 4/5] : List ℚ).length : ℚ)) :=
  ⟨by simp, claim_C5_heat_reducer.2.1 [6/5, 4/5] (by simp)⟩

/-- C8 counterexample: on the year-over-year path, a company with no
mention record for either period (both counts 0) still gets status
`"success"`, not `"no_data"`. -/
theorem claim_C8_counterexample :
    (calculateCompanyYoY none none).current_month_mentions = 0 ∧
    (calculateCompanyYoY none none).previous_year_mentions = 0 ∧
    (calculateCompanyYoY none none).status = "success" ∧
    (calculateCompanyYoY none none).status ≠ "no_data" := by
  refine ⟨rfl, rfl, rfl, ?_⟩
  decide

/-- C8 amended: the stated status rule holds on the NewsAPI-service
month-over-month path — status is `"no_data"` exactly when no mention
record existed for either period, in which case both counts are 0 —
while the year-over-year path and the API-level NewsAPI
month-over-month path always report `"success"` on a fault-free
lookup, even when no record existed. -/
theorem claim_C8_status_rule (currentRow previousRow : Option ℕ) :
    ((newsapiMomEntry currentRow previousRow).status = "no_data"
        ↔ currentRow = none ∧ previousRow = none) ∧
    (currentRow = none → previousRow = none →
        (newsapiMomEntry currentRow previousRow).current_mentions = 0 ∧
        (newsapiMomEntry currentRow previousRow).previous_mentions = 0) ∧
    (calculateCompanyYoY currentRow previousRow).status = "success" ∧
    (apiNewsapiMomEntry currentRow previousRow).status = "success" := by
  cases currentRow <;> cases previousRow <;>
    refine ⟨?_, ?_, rfl, rfl⟩ <;> simp [newsapiMomEntry]

/-- Witness for C8 at the no-record input. -/
theorem claim_C8_status_rule_witness :
    ((newsapiMomEntry none none).status = "no_data"
        ↔ (none : Option ℕ) = none ∧ (none : Option ℕ) = none) ∧
    ((none : Option ℕ) = none → (none : Option ℕ) = none →
        (newsapiMomEntry none none).current_mentions = 0 ∧
        (newsapiMomEntry none none).previous_mentions = 0) ∧
    (calculateCompanyYoY none none).status = "success" ∧
    (apiNewsapiMomEntry none none).status = "success" :=
  claim_C8_status_rule none none

/-- C6 counterexample: the sort key maps a null change percentage to 0,
so a null entry sorts above an entry with change -5.0 — nulls are not
treated as the lowest value. -/
theorem claim_C6_counterexample :
    sortResultsDesc [⟨"A", some (-5)⟩, ⟨"B", none⟩]
        = [⟨"B", none⟩, ⟨"A", some (-5)⟩] ∧
    (ChangeRow.mk "B" none).monthly_change_percentage = none ∧
    ((-5 : ℚ) < 0) := by
  refine ⟨by decide, rfl, by norm_num⟩

/-- C6 amended: the per-entity results are sorted by change percentage
in descending order with a null change percentage treated as 0 for sort
purposes (so a null entry sorts above every entry with a negative
percentage, not below). -/
theorem claim_C6_sort_desc_nulls_as_zero (l : List ChangeRow) :
    ((sortResultsDesc l).Pairwise
        (fun a b => sortKeyOrZero b ≤ sortKeyOrZero a)) ∧
    (sortResultsDesc l).Perm l := by
  constructor
  · have htot : ∀ a b : ChangeRow,
        decide (sortKeyOrZero b ≤ sortKeyOrZero a) = true
          ∨ decide (sortKeyOrZero a ≤ sortKeyOrZero b) = true := by
      intro a b
      rcases le_total (sortKeyOrZero b) (sortKeyOrZero a) with h | h
      · exact Or.inl (decide_eq_true h)
      · exact Or.inr (decide_eq_true h)
    have h := pairwise_insertionSortBy htot
      (fun a b c hab hbc =>
        decide_eq_true (le_trans (of_decide_eq_true hbc) (of_decide_eq_true hab)))
      l
    exact h.imp (fun hab => of_decide_eq_true hab)
  · exact insertionSortBy_perm _ l

/-- C9 counterexample: `"2025-13"` is not a valid month key by the
spec's YYYY-MM rule, yet the year-over-year service accepts it — going
on to query storage for `"2025-13"` and `"2024-13"` — and the
comprehensive-ranking path reads the analysis table with the raw key
with no validation at all. -/
theorem claim_C9_counterexample :
    specMonthKeyValid "2025-13" = false ∧
    yoyAnalysisMonths? "2025-13" = some ("2025-13", "2024-13") ∧
    getGdeltRankingData [⟨"A", "2025-13", 7⟩] "2025-13" = [⟨"A", 7⟩] := by
  refine ⟨by decide, by decide, by decide⟩

/-- C9 amended: only the `strptime`-based validations enforce month
01-12 before computation (they reject `"2025-13"`); the split-and-int
validation used by the year-over-year service and the API NewsAPI
month-over-month endpoint accepts any integer month such as
`"2025-13"`, and the comprehensive-ranking endpoint reads storage with
the unvalidated key. -/
theorem claim_C9_month_validation :
    (∀ s : String, ∀ y m : ℕ, strptimeYm? s = some (y, m) → 1 ≤ m ∧ m ≤ 12) ∧
    strptimeYm? "2025-13" = none ∧
    splitIntMonth? "2025-13" = some (2025, 13) := by
  refine ⟨?_, by decide, by decide⟩
  intro s y m h
  unfold strptimeYm? at h
  split at h
  · split_ifs at h with hlen
    · split at h
      · split_ifs at h with hrange
        simp only [Option.some.injEq, Prod.mk.injEq] at h
        obtain ⟨rfl, rfl⟩ := h
        exact ⟨hrange.2.1, hrange.2.2⟩
      · simp at h
  · simp at h

/-- Witness for C9 at the valid key `"2025-09"`. -/
theorem claim_C9_month_validation_witness :
    strptimeYm? "2025-09" = some (2025, 9) ∧ 1 ≤ 9 ∧ 9 ≤ 12 :=
  ⟨by decide, claim_C9_month_validation.1 "2025-09" 2025 9 (by decide)⟩

/-- C2 counterexample: with previous=400, current=401 the
NewsAPI-service path stores `round(0.25, 1) = 0.2`, not the round-half-
up value 0.3 that the claim requires of every path. -/
theorem claim_C2_counterexample :
    (newsapiMomEntry (some 401) (some 400)).change_percentage = 1/5 ∧
    decimalQuantizeHalfUp1 (pct 401 400) = 3/10 ∧
    ((1 : ℚ)/5 ≠ 3/10) := by
  refine ⟨?_, ?_, by norm_num⟩ <;>
    norm_num [newsapiMomEntry, pyRound1, pyRoundAt, roundHalfEvenInt, pct,
      decimalQuantizeHalfUp1]

/-- C2 amended: with previous > 0, only the analysis-service path
rounds the percentage half-up to one decimal (on the idealized exact
quotient); the NewsAPI-service path applies Python's
round-half-to-even `round(x, 1)` (so 400→401 yields 0.2, not 0.3), and
the API-level NewsAPI path returns the raw unrounded percentage. -/
theorem claim_C2_rounding_by_path (current previous : ℕ) (h : 0 < previous) :
    calcPercentageChange current previous
        = decimalQuantizeHalfUp1 (pct current previous) ∧
    (newsapiMomEntry (some current) (some previous)).change_percentage
        = pyRound1 (pct current previous) ∧
    (apiNewsapiMomEntry (some current) (some previous)).monthly_change_percentage
        = pct current previous := by
  have hp : previous ≠ 0 := Nat.pos_iff_ne_zero.mp h
  refine ⟨?_, ?_, ?_⟩
  · unfold calcPercentageChange
    rw [if_neg hp]
  · simp [newsapiMomEntry, hp]
  · simp [apiNewsapiMomEntry, hp]

/-- Witness for C2 at the claim's own input (401, 400). -/
theorem claim_C2_rounding_by_path_witness :
    0 < 400 ∧
    (calcPercentageChange 401 400 = decimalQuantizeHalfUp1 (pct 401 400) ∧
     (newsapiMomEntry (some 401) (some 400)).change_percentage = pyRound1 (pct 401 400) ∧
     (apiNewsapiMomEntry (some 401) (some 400)).monthly_change_percentage = pct 401 400) :=
  ⟨by norm_num, claim_C2_rounding_by_path 401 400 (by norm_num)⟩

/-- C1 counterexample: on the NewsAPI-service path with previous=10000,
current=10001 the returned value is 0.0 (the rounded change) while the
formatted string is `"+0.0%"` — a zero value whose formatted string is
not exactly `"0.0%"`, because the sign is keyed to the unrounded
change. -/
theorem claim_C1_counterexample :
    (newsapiMomEntry (some 10001) (some 10000)).change_percentage = 0 ∧
    (newsapiMomEntry (some 10001) (some 10000)).formatted_change = "+0.0%" ∧
    ("+0.0%" : String) ≠ "0.0%" := by
  refine ⟨?_, ?_, by decide⟩
  · norm_num [newsapiMomEntry, pyRound1, pyRoundAt, roundHalfEvenInt, pct]
  · norm_num [newsapiMomEntry, pyFmt1, roundHalfEvenInt, pct]
    rfl

/-- C1 amended: the zero/zero and zero/positive sentinel cases hold as
claimed on all three embedded paths; for previous > 0 the
analysis-service pair keys the formatted sign to the *returned*
(quantized) value exactly as claimed, while both NewsAPI paths key the
sign to the *unrounded* change — the service path then returns the
rounded value, so a positive change that rounds to zero is returned as
value 0.0 with formatted `"+0.0%"`, and the API-level path returns the
raw unrounded value under the same sign rule. -/
theorem claim_C1_change_metric (current previous : ℕ) :
    (previous = 0 → current = 0 →
        calcPercentageChange current previous = 0 ∧
        formatPercentageChange (some (calcPercentageChange current previous)) = "0.0%" ∧
        (newsapiMomEntry (some current) (some previous)).change_percentage = 0 ∧
        (newsapiMomEntry (some current) (some previous)).formatted_change = "0.0%" ∧
        (apiNewsapiMomEntry (some current) (some previous)).monthly_change_percentage = 0 ∧
        (apiNewsapiMomEntry (some current) (some previous)).formatted_change = "0.0%") ∧
    (previous = 0 → 0 < current →
        calcPercentageChange current previous = 999 ∧
        formatPercentageChange (some (calcPercentageChange current previous)) = "+999.0%" ∧
        (newsapiMomEntry (some current) (some previous)).change_percentage = 999 ∧
        (newsapiMomEntry (some current) (some previous)).formatted_change = "+999.0%" ∧
        (apiNewsapiMomEntry (some current) (some previous)).monthly_change_percentage = 999 ∧
        (apiNewsapiMomEntry (some current) (some previous)).formatted_change = "+999.0%") ∧
    (0 < previous →
        (0 < calcPercentageChange current previous →
            formatPercentageChange (some (calcPercentageChange current previous))
              = "+" ++ pyFmt1 (calcPercentageChange current previous) ++ "%") ∧
        (calcPercentageChange current previous < 0 →
            formatPercentageChange (some (calcPercentageChange current previous))
              = pyFmt1 (calcPercentageChange current previous) ++ "%") ∧
        (calcPercentageChange current previous = 0 →
            formatPercentageChange (some (calcPercentageChange current previous)) = "0.0%") ∧
        (0 < pct current previous →
            (newsapiMomEntry (some current) (some previous)).formatted_change
              = "+" ++ pyFmt1 (pct current previous) ++ "%") ∧
        (pct current previous < 0 →
            (newsapiMomEntry (some current) (some previous)).formatted_change
              = pyFmt1 (pct current previous) ++ "%") ∧
        (pct current previous = 0 →
            (newsapiMomEntry (some current) (some previous)).formatted_change = "0.0%") ∧
        (apiNewsapiMomEntry (some current) (some previous)).monthly_change_percentage
            = pct current previous ∧
        (0 < pct current previous →
            (apiNewsapiMomEntry (some current) (some previous)).formatted_change
              = "+" ++ pyFmt1 (pct current previous) ++ "%") ∧
        (pct current previous < 0 →
            (apiNewsapiMomEntry (some current) (some previous)).formatted_change
              = pyFmt1 (pct current previous) ++ "%") ∧
        (pct current previous = 0 →
            (apiNewsapiMomEntry (some current) (some previous)).formatted_change = "0.0%")) := by
  refine ⟨?_, ?_, ?_⟩
  · rintro rfl rfl
    refine ⟨rfl, ?_, ?_, ?_, ?_, ?_⟩
    · norm_num [calcPercentageChange, formatPercentageChange]
    · norm_num [newsapiMomEntry, pyRound1, pyRoundAt, roundHalfEvenInt]
    · norm_num [newsapiMomEntry]
    · norm_num [apiNewsapiMomEntry]
    · norm_num [apiNewsapiMomEntry]
  · rintro rfl hc
    have hc0 : current ≠ 0 := Nat.pos_iff_ne_zero.mp hc
    refine ⟨?_, ?_, ?_, ?_, ?_, ?_⟩
    · simp [calcPercentageChange, hc0]
    · simp only [calcPercentageChange, if_pos rfl, if_neg hc0]
      norm_num [formatPercentageChange, pyFmt1, roundHalfEvenInt]
      rfl
    · simp only [newsapiMomEntry, Option.getD_some, if_pos rfl, if_neg hc0]
      norm_num [pyRound1, pyRoundAt, roundHalfEvenInt]
    · simp [newsapiMomEntry, hc0]
    · simp [apiNewsapiMomEntry, hc0]
    · simp [apiNewsapiMomEntry, hc0]
  · intro hp
    have hp0 : previous ≠ 0 := Nat.pos_iff_ne_zero.mp hp
    refine ⟨?_, ?_, ?_, ?_, ?_, ?_, ?_, ?_, ?_, ?_⟩
    · intro hv
      simp only [formatPercentageChange, if_pos hv]
    · intro hv
      simp only [formatPercentageChange, if_neg (lt_asymm hv), if_pos hv]
    · intro hv
      rw [hv]
      norm_num [formatPercentageChange]
    · intro hraw
      simp only [newsapiMomEntry, Option.getD_some, if_neg hp0, if_pos hraw]
    · intro hraw
      simp only [newsapiMomEntry, Option.getD_some, if_neg hp0,
        if_neg (lt_asymm hraw), if_pos hraw]
    · intro hraw
      simp only [newsapiMomEntry, Option.getD_some, if_neg hp0, hraw]
      norm_num
    · simp [apiNewsapiMomEntry, hp0]
    · intro hraw
      simp only [apiNewsapiMomEntry, Option.getD_some, if_neg hp0, if_pos hraw]
    · intro hraw
      simp only [apiNewsapiMomEntry, Option.getD_some, if_neg hp0,
        if_neg (lt_asymm hraw), if_pos hraw]
    · intro hraw
      simp only [apiNewsapiMomEntry, Option.getD_some, if_neg hp0, hraw]
      norm_num

/-- Witness for C1 at (150, 200) for the analysis path and
(10001, 10000) for the two NewsAPI paths. -/
theorem claim_C1_change_metric_witness :
    formatPercentageChange (some (calcPercentageChange 150 200))
        = pyFmt1 (calcPercentageChange 150 200) ++ "%" ∧
    (newsapiMomEntry (some 10001) (some 10000)).formatted_change
        = "+" ++ pyFmt1 (pct 10001 10000) ++ "%" ∧
    (apiNewsapiMomEntry (some 10001) (some 10000)).monthly_change_percentage
        = pct 10001 10000 ∧
    (apiNewsapiMomEntry (some 10001) (some 10000)).formatted_change
        = "+" ++ pyFmt1 (pct 10001 10000) ++ "%" :=
  ⟨((claim_C1_change_metric 150 200).2.2 (by norm_num)).2.1
      (by norm_num [calcPercentageChange, decimalQuantizeHalfUp1, pct]),
   ((claim_C1_change_metric 10001 10000).2.2 (by norm_num)).2.2.2.1
      (by norm_num [pct]),
   ((claim_C1_change_metric 10001 10000).2.2 (by norm_num)).2.2.2.2.2.2.1,
   ((claim_C1_change_metric 10001 10000).2.2 (by norm_num)).2.2.2.2.2.2.2.1
      (by norm_num [pct])⟩

/-- C7: with a computed previous-period ranking, each current entry with
a previous final rank gets delta = previous − current and direction by
the sign of the delta; an entry with no previous rank, and every entry
when the previous period could not be computed at all, keeps the
current ranking data unchanged with the unknown direction (the Python
code's `None` / absent field). -/
theorem claim_C7_rank_delta :
    (∀ current : List CombinedEntry,
        calculateRankingChanges none current
          = current.map (fun e => ⟨e, none, none, RankDir.unknown⟩)) ∧
    (∀ prev current : List CombinedEntry, ∀ e : RankChangeEntry,
        e ∈ calculateRankingChanges (some prev) current →
          e.base ∈ current ∧
          (∀ p : ℕ, pyDictGet? (prevRankMap prev) e.base.company_name = some p →
              e.previous_rank = some p ∧
              e.rank_change = some ((p : ℤ) - (e.base.final_rank : ℤ)) ∧
              e.rank_change_direction
                = (if 0 < (p : ℤ) - (e.base.final_rank : ℤ) then RankDir.up
                   else if (p : ℤ) - (e.base.final_rank : ℤ) < 0 then RankDir.down
                   else RankDir.same)) ∧
          (pyDictGet? (prevRankMap prev) e.base.company_name = none →
              e.previous_rank = none ∧ e.rank_change = none ∧
              e.rank_change_direction = RankDir.unknown)) := by
  refine ⟨fun current => rfl, ?_⟩
  intro prev current e he
  unfold calculateRankingChanges at he
  rcases List.mem_map.mp he with ⟨x, hx, rfl⟩
  cases hget : pyDictGet? (prevRankMap prev) x.company_name with
  | some q =>
    dsimp only
    refine ⟨hx, ?_, ?_⟩
    · intro p hp
      rw [hget] at hp
      rcases Option.some_inj.mp hp with rfl
      exact ⟨rfl, rfl, rfl⟩
    · intro hp
      rw [hget] at hp
      simp at hp
  | none =>
    dsimp only
    refine ⟨hx, ?_, ?_⟩
    · intro p hp
      rw [hget] at hp
      simp at hp
    · intro hp
      exact ⟨rfl, rfl, rfl⟩

/-- Witness for C7: company "A" moves from final rank 2 to final rank
1, giving delta 1 and direction up. -/
theorem claim_C7_rank_delta_witness :
    (RankChangeEntry.mk ⟨"A", 0, 0, 0, 0, 0, 1⟩ (some 2) (some 1) RankDir.up).previous_rank
        = some 2 ∧
    (RankChangeEntry.mk ⟨"A", 0, 0, 0, 0, 0, 1⟩ (some 2) (some 1) RankDir.up).rank_change
        = some 1 ∧
    (RankChangeEntry.mk ⟨"A", 0, 0, 0, 0, 0, 1⟩ (some 2) (some 1) RankDir.up).rank_change_direction
        = RankDir.up :=
  (claim_C7_rank_delta.2 [⟨"A", 0, 0, 0, 0, 0, 2⟩] [⟨"A", 0, 0, 0, 0, 0, 1⟩]
      ⟨⟨"A", 0, 0, 0, 0, 0, 1⟩, some 2, some 1, RankDir.up⟩ (by decide)).2.1 2 (by decide)

/-- C3: both ranking passes implement competition ranking — the rank of
an entry is 1 plus the number of entries with a strictly greater metric
(so metrics [50, 50, 30] give ranks [1, 1, 3]), and the final rank over
combined scores is 1 plus the number of entries with a strictly smaller
(better) score. -/
theorem claim_C3_competition_ranking :
    (∀ data : List SrcItem, ∀ mentions : ℕ,
        properRank data mentions
          = 1 + data.countP (fun o => decide (mentions < o.mentions))) ∧
    calculateProperRanking [⟨"A", 50⟩, ⟨"B", 50⟩, ⟨"C", 30⟩]
        = [("C", ⟨3, 30⟩), ("B", ⟨1, 50⟩), ("A", ⟨1, 50⟩)] ∧
    (∀ g n : List SrcItem, ∀ e : CombinedEntry,
        e ∈ calculateComprehensiveRanking g n →
          e.final_rank
            = 1 + (calculateComprehensiveRanking g n).countP
                (fun o => decide (o.combined_rank_score < e.combined_rank_score))) := by
  refine ⟨properRank_eq_one_add_count, by decide, ?_⟩
  intro g n e he
  rcases (mem_comprehensive_iff g n e).mp he with ⟨e₀, he₀, rfl⟩
  have hfinal :
      ({ e₀ with
          final_rank := (comprehensiveSorted g n).foldl
            (fun r other =>
              if other.combined_rank_score < e₀.combined_rank_score then r + 1 else r)
            1 } : CombinedEntry).final_rank
        = (comprehensiveSorted g n).foldl
            (fun r other =>
              if other.combined_rank_score < e₀.combined_rank_score then r + 1 else r)
            1 := rfl
  have hcount := foldl_count
    (fun o : CombinedEntry => o.combined_rank_score < e₀.combined_rank_score)
    (comprehensiveSorted g n) 1
  rw [hfinal, hcount]
  congr 1
  unfold calculateComprehensiveRanking
  rw [List.countP_map]
  rfl

/-- Witness for C3 on a three-company source with a tie. -/
theorem claim_C3_competition_ranking_witness :
    (CombinedEntry.mk "A" 50 1 0 1 2 1
        ∈ calculateComprehensiveRanking [⟨"A", 50⟩, ⟨"B", 50⟩, ⟨"C", 30⟩] []) ∧
    (CombinedEntry.mk "A" 50 1 0 1 2 1).final_rank
        = 1 + (calculateComprehensiveRanking [⟨"A", 50⟩, ⟨"B", 50⟩, ⟨"C", 30⟩] []).countP
            (fun o => decide (o.combined_rank_score
              < (CombinedEntry.mk "A" 50 1 0 1 2 1).combined_rank_score)) :=
  ⟨by decide,
   claim_C3_competition_ranking.2.2 [⟨"A", 50⟩, ⟨"B", 50⟩, ⟨"C", 30⟩] []
     (CombinedEntry.mk "A" 50 1 0 1 2 1) (by decide)⟩

/-- C4: the combined ranking ranges over the union of company names;
an entity missing from a source contributes mentions 0 and rank (that
source's result-set size + 1), and the combined score is the sum of the
two per-source ranks — concretely, rank 1 in a 5-entry source A plus
absence from a 5-entry source B gives score 1 + 6 = 7. -/
theorem claim_C4_cross_source_scores :
    (∀ g n : List SrcItem, ∀ e : CombinedEntry,
        e ∈ calculateComprehensiveRanking g n →
          (e.company_name ∈ g.map (·.company_name)
              ∨ e.company_name ∈ n.map (·.company_name)) ∧
          e.combined_rank_score = e.gdelt_rank + e.newsapi_rank ∧
          (e.company_name ∉ g.map (·.company_name) →
              e.gdelt_mentions = 0 ∧ e.gdelt_rank = g.length + 1) ∧
          (e.company_name ∉ n.map (·.company_name) →
              e.newsapi_mentions = 0 ∧ e.newsapi_rank = n.length + 1)) ∧
    ((calculateComprehensiveRanking
          [⟨"X", 100⟩, ⟨"B", 90⟩, ⟨"C", 80⟩, ⟨"D", 70⟩, ⟨"E", 60⟩]
          [⟨"F", 50⟩, ⟨"G", 40⟩, ⟨"H", 30⟩, ⟨"I", 20⟩, ⟨"J", 10⟩]).find?
        (fun e => e.company_name == "X")
      = some ⟨"X", 100, 1, 0, 6, 7, 1⟩) := by
  refine ⟨?_, by decide⟩
  intro g n e he
  rcases (mem_comprehensive_iff g n e).mp he with ⟨e₀, he₀, rfl⟩
  rcases (mem_comprehensiveSorted_iff g n e₀).mp he₀ with ⟨nm, hnm, rfl⟩
  have hmem : nm ∈ g.map (·.company_name) ∨ nm ∈ n.map (·.company_name) := by
    have h := hnm
    unfold allCompanyNames at h
    rw [List.mem_dedup, List.mem_append] at h
    exact h
  refine ⟨hmem, rfl, ?_, ?_⟩
  · intro hng
    have hnone := calculateProperRanking_get_eq_none g nm hng
    constructor
    · show ((pyDictGet? (calculateProperRanking g) nm).map (·.mentions)).getD 0 = 0
      rw [hnone]
      rfl
    · show (match pyDictGet? (calculateProperRanking g) nm with
            | some i => i.rank
            | none => g.length + 1) = g.length + 1
      rw [hnone]
  · intro hnn
    have hnone := calculateProperRanking_get_eq_none n nm hnn
    constructor
    · show ((pyDictGet? (calculateProperRanking n) nm).map (·.mentions)).getD 0 = 0
      rw [hnone]
      rfl
    · show (match pyDictGet? (calculateProperRanking n) nm with
            | some i => i.rank
            | none => n.length + 1) = n.length + 1
      rw [hnone]

/-- Witness for C4: one company known only to the first source. -/
theorem claim_C4_cross_source_scores_witness :
    ((CombinedEntry.mk "A" 50 1 0 1 2 1).company_name
        ∈ ([⟨"A", 50⟩] : List SrcItem).map (·.company_name)
      ∨ (CombinedEntry.mk "A" 50 1 0 1 2 1).company_name
        ∈ ([] : List SrcItem).map (·.company_name)) ∧
    (CombinedEntry.mk "A" 50 1 0 1 2 1).combined_rank_score
        = (CombinedEntry.mk "A" 50 1 0 1 2 1).gdelt_rank
          + (CombinedEntry.mk "A" 50 1 0 1 2 1).newsapi_rank ∧
    (CombinedEntry.mk "A" 50 1 0 1 2 1).newsapi_mentions = 0 ∧
    (CombinedEntry.mk "A" 50 1 0 1 2 1).newsapi_rank
        = ([] : List SrcItem).length + 1 := by
  have h := claim_C4_cross_source_scores.1 [⟨"A", 50⟩] []
    (CombinedEntry.mk "A" 50 1 0 1 2 1) (by decide)
  exact ⟨h.1, h.2.1, h.2.2.2 (by decide)⟩

/-- C10: each company name of the union appears exactly once in the
combined ranking output, and the per-source rank map resolves a
duplicated name to the value computed from its last occurrence. -/
theorem claim_C10_unique_names (g n : List SrcItem) :
    ((calculateComprehensiveRanking g n).map (·.company_name)).Nodup ∧
    (∀ nm : String,
        nm ∈ (calculateComprehensiveRanking g n).map (·.company_name)
          ↔ nm ∈ g.map (·.company_name) ∨ nm ∈ n.map (·.company_name)) ∧
    (∀ data : List SrcItem, ∀ nm : String,
        pyDictGet? (calculateProperRanking data) nm
          = (data.reverse.find? (fun it => it.company_name == nm)).map
              (fun it => RankInfo.mk (properRank data it.mentions) it.mentions)) := by
  have h1 : (calculateComprehensiveRanking g n).map (·.company_name)
      = (comprehensiveSorted g n).map (·.company_name) := by
    unfold calculateComprehensiveRanking
    rw [List.map_map]
    rfl
  have h3 : (comprehensiveBase g n).map (·.company_name) = allCompanyNames g n := by
    unfold comprehensiveBase
    rw [List.map_map]
    exact List.map_id _
  have hperm : ((calculateComprehensiveRanking g n).map (·.company_name)).Perm
      (allCompanyNames g n) := by
    rw [h1, ← h3]
    exact (comprehensiveSorted_perm g n).map (·.company_name)
  refine ⟨?_, ?_, calculateProperRanking_get⟩
  · exact hperm.nodup_iff.mpr (List.nodup_dedup _)
  · intro nm
    rw [hperm.mem_iff]
    unfold allCompanyNames
    rw [List.mem_dedup, List.mem_append]

end PopAI

